import Mathlib

/-!
Verification of the orchestration core of the mobile-use repository.

The definitions below are a shallow embedding of the Python sources:

* `minitap/mobile_use/agents/executor/tool_node.py` — the tool dispatch
  engine (`ExecutorToolNode`): sequential abort-on-failure dispatch,
  parallel no-abort dispatch, output classification and synthesized
  error results.
* `minitap/mobile_use/services/llm.py` — the resilient invocation
  wrapper (`with_fallback`) and the wait-notice wrapper
  (`invoke_llm_with_timeout_message`).
* `minitap/mobile_use/graph/graph.py` — the routing functions
  `convergence_gate`, `post_cortex_gate`, `post_monolithic_gate`.
* `minitap/mobile_use/agents/monolithic/monolithic.py` — the completion
  detection recorded in `monolithic_is_complete`.

Python exceptions are represented with `Except String`; Python `None`
with `Option`.  Message payloads are modelled only to the extent the
engine inspects them (tool-message status, tool_call_id, content).
-/

namespace MobileUse

/-! ## Data model of messages and tool outputs -/

/-- Status field of a `ToolMessage` (`success` / `error`). -/
inductive MsgStatus
  | success
  | error
deriving DecidableEq, Repr

/-- A requested tool invocation, as consumed by the dispatch engine:
the `id` and `name` entries of a langchain `ToolCall` dict. -/
structure ToolCallReq where
  id : String
  name : String
deriving DecidableEq, Repr

/-- A langchain `ToolMessage`, restricted to the fields the engine
reads: `name`, `tool_call_id`, `content`, `status`. -/
structure ToolMessage where
  name : String
  tool_call_id : String
  content : String
  status : MsgStatus
deriving DecidableEq, Repr

/-- A message inside a `Command` update list: either a `ToolMessage` or
some other message type (AIMessage, HumanMessage, ...). -/
inductive AnyMsg
  | toolMsg (m : ToolMessage)
  | nonToolMsg
deriving DecidableEq, Repr

/-- Shape of the `update` payload of a langgraph `Command`, as far as
`ExecutorToolNode._get_tool_message` distinguishes shapes:
the update is a dict whose messages key holds a list, a single
`ToolMessage`, `None`, or an unexpected type; or the update is not a
dict at all. -/
inductive CmdUpdate
  | dictList (msgs : List AnyMsg)
  | dictSingle (m : ToolMessage)
  | dictNone
  | dictOther
  | notDict
deriving DecidableEq, Repr

/-- The runtime value a tool invocation produced: a `ToolMessage`, a
`Command`, or a value of some other Python type (carried as the string
rendering of that type, used in the synthesized error message). -/
inductive ToolOutput
  | toolMessage (m : ToolMessage)
  | command (u : CmdUpdate)
  | unrecognized (tyName : String)
deriving DecidableEq, Repr

/-- Rendering of `type(output)` used in the synthesized
"Unexpected tool output type" message. -/
def pyTypeName : ToolOutput → String
  | .toolMessage _ => "ToolMessage"
  | .command _ => "Command"
  | .unrecognized tyName => tyName

/-- Whether a `MsgStatus` is the error status. -/
def statusIsError : MsgStatus → Bool
  | .error => true
  | .success => false

/-! ## Output classification (`tool_node.py` lines 220-252) -/

/-- Embeds `ExecutorToolNode._get_tool_message`: extract the tool
message of a `Command`, raising `ValueError` (modelled as
`Except.error`) for every malformed shape. -/
def get_tool_message (u : CmdUpdate) : Except String ToolMessage :=
  match u with
  | .dictList msgs =>
      match msgs.getLast? with
      | none => .error "No messages found in command update"
      | some (.toolMsg m) => .ok m
      | some .nonToolMsg => .error "Last message in command update is not a tool message"
  | .dictSingle m => .ok m
  | .dictNone => .error "Missing messages key in command update"
  | .dictOther => .error "Unexpected message type in command update"
  | .notDict => .error "Command update is not a dict"

/-- Embeds `ExecutorToolNode._has_tool_call_failed`: returns
`some true` / `some false` for a recognized `ToolMessage` or `Command`
output, `none` (Python `None`) for an output of any other type, and
propagates the `ValueError` raised by `_get_tool_message` on a
malformed `Command`. -/
def has_tool_call_failed (output : ToolOutput) : Except String (Option Bool) :=
  match output with
  | .toolMessage m => .ok (some (statusIsError m.status))
  | .command u =>
      match get_tool_message u with
      | .error e => .error e
      | .ok m => .ok (some (statusIsError m.status))
  | .unrecognized _ => .ok none

/-- Embeds `ExecutorToolNode._get_erroneous_command`: a `Command`
holding a single error `ToolMessage` whose `tool_call_id` is the id of
the offending call. -/
def get_erroneous_command (call : ToolCallReq) (message : String) : ToolOutput :=
  .command (.dictList [.toolMsg ⟨call.name, call.id, message, .error⟩])

/-- Content of the synthesized result for calls skipped after an
earlier failure in sequential mode (`tool_node.py` line 94). -/
def abortMessage : String := "Aborted: a previous tool call failed!"

/-! ## Sequential dispatch (`_run_sequential`, lines 76-112)

Tool execution itself is an external collaborator; it is abstracted as
a function `exec` from the call to the output value it produced.  The
loop below mirrors the Python `for` loop with its `failed` flag. -/

/-- Loop body of `_run_sequential`: processes the remaining calls given
the current value of the `failed` flag.  An exception raised while
classifying an output (malformed `Command`) propagates, exactly as the
uncaught `ValueError` does in Python. -/
def run_sequential_go (exec : ToolCallReq → ToolOutput) :
    List ToolCallReq → Bool → Except String (List ToolOutput)
  | [], _ => .ok []
  | call :: rest, failed =>
    if failed then
      (run_sequential_go exec rest true).map
        (fun outs => get_erroneous_command call abortMessage :: outs)
    else
      match has_tool_call_failed (exec call) with
      | .error e => .error e
      | .ok none =>
          (run_sequential_go exec rest true).map
            (fun outs =>
              get_erroneous_command call
                ("Unexpected tool output type: " ++ pyTypeName (exec call)) :: outs)
      | .ok (some f) =>
          (run_sequential_go exec rest f).map (fun outs => exec call :: outs)

/-- Embeds `ExecutorToolNode._run_sequential`: sequential dispatch with
abort-on-failure, starting with the `failed` flag clear. -/
def run_sequential (exec : ToolCallReq → ToolOutput) (calls : List ToolCallReq) :
    Except String (List ToolOutput) :=
  run_sequential_go exec calls false

/-! ## Parallel dispatch (`_run_parallel`, async path, lines 126-151)

The calls run concurrently under `asyncio.gather(*, return_exceptions=True)`
and the engine then folds the gathered results in request order.  Each
call outcome is abstracted as `Except String ToolOutput`: `Except.error`
models the per-call exception captured by `gather`.  The fold below is
the post-gather `for call, result in zip(tool_calls, results)` loop. -/

/-- Embeds the async branch of `ExecutorToolNode._run_parallel`. -/
def run_parallel (exec : ToolCallReq → Except String ToolOutput) :
    List ToolCallReq → Except String (List ToolOutput)
  | [] => .ok []
  | call :: rest =>
    match exec call with
    | .error e =>
        (run_parallel exec rest).map
          (fun outs =>
            get_erroneous_command call ("Exception during parallel execution: " ++ e) :: outs)
    | .ok output =>
        match has_tool_call_failed output with
        | .error e => .error e
        | .ok none =>
            (run_parallel exec rest).map
              (fun outs =>
                get_erroneous_command call
                  ("Unexpected tool output type: " ++ pyTypeName output) :: outs)
        | .ok (some _) =>
            (run_parallel exec rest).map (fun outs => output :: outs)

/-- Expected per-call result of parallel dispatch, stated in the words
of the spec: an exception becomes an error result with the
"Exception during parallel execution" message, an unrecognized output
becomes an "Unexpected tool output type" error result, and every other
output is kept unchanged. -/
def per_call_parallel_result (exec : ToolCallReq → Except String ToolOutput)
    (call : ToolCallReq) : ToolOutput :=
  match exec call with
  | .error e => get_erroneous_command call ("Exception during parallel execution: " ++ e)
  | .ok output =>
      match has_tool_call_failed output with
      | .ok none =>
          get_erroneous_command call ("Unexpected tool output type: " ++ pyTypeName output)
      | _ => output

/-! ## Resilient invocation wrapper (`services/llm.py` lines 286-299)

The awaited calls are abstracted by their outcomes: `Except.error`
models a raised exception, and the value type is `Option τ` so that
Python `None` is `Option.none`.  A trace records how many times each
callable was invoked, so that "never retried" and "single fallback
attempt" are stated directly. -/

/-- Outcome of one `with_fallback` run: the value it returns (or the
exception it propagates) together with invocation counts for the two
callables. -/
structure FallbackTrace (τ : Type) where
  result : Except String (Option τ)
  main_invocations : Nat
  fallback_invocations : Nat
deriving Repr

/-- Embeds `with_fallback`.  The fallback callable may be awaited more
than once, so it is abstracted as a map from invocation index to
outcome (`fallback_results 0` is the outcome of its first await,
`fallback_results 1` of its second).  Control flow of the source: the
body of the `try` awaits `main_call` once; if the result is `None`
while `none_should_fallback` is set it returns `await fallback_call()`
— still inside the `try`, so if that first fallback await raises, the
`except` handler catches it and awaits `fallback_call()` a second
time, whose outcome is returned (errors propagating).  If `main_call`
itself raises, the `except` handler awaits the fallback once.
Otherwise the main outcome is returned. -/
def with_fallback {τ : Type} (main_result : Except String (Option τ))
    (fallback_results : Nat → Except String (Option τ))
    (none_should_fallback : Bool) : FallbackTrace τ :=
  match main_result with
  | .ok r =>
      if r.isNone && none_should_fallback then
        match fallback_results 0 with
        | .ok v =>
            { result := .ok v, main_invocations := 1, fallback_invocations := 1 }
        | .error _ =>
            { result := fallback_results 1, main_invocations := 1,
              fallback_invocations := 2 }
      else
        { result := .ok r, main_invocations := 1, fallback_invocations := 0 }
  | .error _ =>
      { result := fallback_results 0, main_invocations := 1, fallback_invocations := 1 }

/-! ## Wait-notice wrapper (`services/llm.py` lines 30-56)

`invoke_llm_with_timeout_message` races the llm task against a sleep
timer with `asyncio.wait(FIRST_COMPLETED)`.  Which task completes first
depends on real time; that race outcome is abstracted as an explicit
`RaceWinner` parameter, and the llm coroutine is abstracted by its
eventual outcome (`Except.error` for a raised exception, since both
`llm_task.result()` and `await llm_task` re-raise it unchanged).  The
trace records the observable effects of each branch. -/

/-- Which of the two raced tasks completes first. -/
inductive RaceWinner
  | llmTask
  | waiterTask
deriving DecidableEq, Repr

/-- Observable outcome of one `invoke_llm_with_timeout_message` run. -/
structure TimeoutMessageTrace (τ : Type) where
  result : Except String τ
  waiter_cancelled : Bool
  notice_logged : Bool
  llm_cancelled : Bool
  llm_awaited : Nat
deriving Repr

/-- Embeds `invoke_llm_with_timeout_message`: if the llm task finishes
first, cancel the timer and return its outcome; if the timer fires
first, log the waiting notice and then await and return the llm task
outcome.  The llm task is never cancelled in either branch. -/
def invoke_llm_with_timeout_message {τ : Type} (winner : RaceWinner)
    (llm_outcome : Except String τ) : TimeoutMessageTrace τ :=
  match winner with
  | .llmTask =>
      { result := llm_outcome, waiter_cancelled := true, notice_logged := false,
        llm_cancelled := false, llm_awaited := 1 }
  | .waiterTask =>
      { result := llm_outcome, waiter_cancelled := false, notice_logged := true,
        llm_cancelled := false, llm_awaited := 1 }

/-! ## Subgoal plan and convergence routing (`graph/graph.py` lines 46-64)

The helper predicates live in `minitap.mobile_use.agents.planner.utils`,
a file absent from the sources (only the caller `convergence_gate` is
present); they are modelled from the spec as indicated on each one. -/

/-- Lifecycle status of a subgoal. -/
inductive SubgoalStatus
  | pending
  | running
  | success
  | failure
deriving DecidableEq, Repr

/-- One step of the plan, with its lifecycle status. -/
structure Subgoal where
  id : String
  description : String
  status : SubgoalStatus
deriving DecidableEq, Repr

/-- Whether a status is `FAILURE`. -/
def statusIsFailure : SubgoalStatus → Bool
  | .failure => true
  | _ => false

/-- Whether a status is `SUCCESS`. -/
def statusIsSuccess : SubgoalStatus → Bool
  | .success => true
  | _ => false

/-- Whether a status is current, i.e. `RUNNING` or `PENDING`. -/
def statusIsCurrent : SubgoalStatus → Bool
  | .running => true
  | .pending => true
  | _ => false

/-- Modelled from the spec: `one_of_them_is_failure` of
`minitap.mobile_use.agents.planner.utils` is missing from the sources.
Spec wording: "if any Subgoal has status FAILURE, route to Plan
(replan)". -/
def one_of_them_is_failure (subgoals : List Subgoal) : Bool :=
  subgoals.any (fun s => statusIsFailure s.status)

/-- Modelled from the spec: `all_completed` of
`minitap.mobile_use.agents.planner.utils` is missing from the sources.
Spec wording: "Else if all Subgoals have status SUCCESS ... terminate". -/
def all_completed (subgoals : List Subgoal) : Bool :=
  subgoals.all (fun s => statusIsSuccess s.status)

/-- Modelled from the spec: `get_current_subgoal` of
`minitap.mobile_use.agents.planner.utils` is missing from the sources.
Spec wording: a current subgoal is one "in RUNNING/PENDING state"; the
helper returns the first such subgoal, if any (Python returns an object
or `None`, tested for truthiness by the gate). -/
def get_current_subgoal (subgoals : List Subgoal) : Option Subgoal :=
  subgoals.find? (fun s => statusIsCurrent s.status)

/-- Embeds `convergence_gate` from `graph/graph.py`: replan on any
failed subgoal, end when all are completed or none is current,
otherwise continue the loop. -/
def convergence_gate (subgoal_plan : List Subgoal) : String :=
  if one_of_them_is_failure subgoal_plan then "replan"
  else if all_completed subgoal_plan then "end"
  else if (get_current_subgoal subgoal_plan).isNone then "end"
  else "continue"

/-- Convergence routing stated from the spec wording, for comparison
with the embedded `convergence_gate`: FAILURE anywhere means replan;
all SUCCESS, or no subgoal in RUNNING/PENDING state, means end;
anything else continues. -/
def convergence_route_spec (subgoal_plan : List Subgoal) : String :=
  if subgoal_plan.any (fun s => statusIsFailure s.status) then "replan"
  else if subgoal_plan.all (fun s => statusIsSuccess s.status)
      || !(subgoal_plan.any (fun s => statusIsCurrent s.status)) then "end"
  else "continue"

/-! ## Post-cortex and post-monolithic routing (`graph/graph.py` lines 67-81
and 125-145, `agents/monolithic/monolithic.py` lines 137-150) -/

/-- An executor-channel message, restricted to what the gates inspect:
an `AIMessage` with its content and tool calls, a `ToolMessage`, or any
other message type. -/
inductive ExecMessage
  | ai (content : String) (tool_calls : List ToolCallReq)
  | toolM (m : ToolMessage)
  | otherMsg
deriving DecidableEq, Repr

/-- The slice of the graph `State` read by the routing functions. -/
structure GraphState where
  subgoal_plan : List Subgoal
  complete_subgoals_by_ids : List String
  structured_decisions : Option String
  executor_messages : List ExecMessage
  monolithic_is_complete : Bool
deriving DecidableEq, Repr

/-- Python truthiness of the optional `structured_decisions` string:
`None` and the empty string are falsy. -/
def truthyStr : Option String → Bool
  | none => false
  | some s => !s.isEmpty

/-- Embeds `post_cortex_gate`: append `review_subgoals` when subgoal
completions are pending or no structured decision is present, and
append `execute_decisions` when a structured decision is present. -/
def post_cortex_gate (state : GraphState) : List String :=
  let node_sequence : List String := []
  let node_sequence :=
    if state.complete_subgoals_by_ids.length > 0 || !truthyStr state.structured_decisions
    then node_sequence ++ ["review_subgoals"] else node_sequence
  if truthyStr state.structured_decisions
  then node_sequence ++ ["execute_decisions"] else node_sequence

/-- Embeds `post_monolithic_gate`: terminate when the monolithic node
recorded completion, otherwise execute tools when the last executor
message is an `AIMessage` carrying at least one tool call, otherwise
loop back for fresh context. -/
def post_monolithic_gate (state : GraphState) : String :=
  if state.monolithic_is_complete then "complete"
  else
    match state.executor_messages.getLast? with
    | none => "continue"
    | some (.ai _ tool_calls) =>
        if tool_calls.length > 0 then "invoke_tools" else "continue"
    | some _ => "continue"

/-- The spec-side reading of the monolithic route decision: complete
when recorded, else tools exactly when the last executor message is an
AI message with a nonempty tool-call list, else continue. -/
def monolithic_route_spec (state : GraphState) : String :=
  if state.monolithic_is_complete then "complete"
  else if (match state.executor_messages.getLast? with
           | some (.ai _ tool_calls) => !tool_calls.isEmpty
           | _ => false) then "invoke_tools"
  else "continue"

/-- The four textual completion phrases scanned for by
`MonolithicNode.__call__`. -/
def completion_phrases : List String :=
  ["task is complete", "goal has been achieved",
   "successfully completed", "task has been completed"]

/-- Whether the character list `needle` occurs at the start of `hay`. -/
def beginsWith : List Char → List Char → Bool
  | _, [] => true
  | [], _ :: _ => false
  | c :: hs, d :: ns => c == d && beginsWith hs ns

/-- Whether the character list `needle` occurs anywhere in `hay`
(Python `needle in hay`). -/
def hasSub (needle : List Char) : List Char → Bool
  | [] => beginsWith [] needle
  | c :: hs => beginsWith (c :: hs) needle || hasSub needle hs

/-- Substring containment on strings (Python `needle in hay`). -/
def strContainsSub (hay needle : String) : Bool :=
  hasSub needle.toList hay.toList

/-- Character-level lowercase conversion (Python `str.lower()`),
written over the character list so it is fully computable. -/
def strToLower (s : String) : String :=
  String.mk (s.toList.map Char.toLower)

/-- Embeds the completion detection of `MonolithicNode.__call__`
(lines 137-150): the response is an `AIMessage` with no tool calls and
truthy content whose lowercase form contains one of the completion
phrases. -/
def monolithic_detect_complete (response : ExecMessage) : Bool :=
  match response with
  | .ai content tool_calls =>
      if tool_calls.isEmpty && !content.isEmpty then
        completion_phrases.any (fun p => strContainsSub (strToLower content) p)
      else false
  | _ => false

/-! ## Helper lemmas on the dispatch engine -/

/-- The `tool_call_id` carried by a dispatch output, when its shape
lets the engine extract one. -/
def output_tool_call_id (o : ToolOutput) : Option String :=
  match o with
  | .toolMessage m => some m.tool_call_id
  | .command u =>
      match get_tool_message u with
      | .ok m => some m.tool_call_id
      | .error _ => none
  | .unrecognized _ => none

theorem output_id_of_erroneous_command (call : ToolCallReq) (msg : String) :
    output_tool_call_id (get_erroneous_command call msg) = some call.id := rfl

theorem classify_erroneous_command (call : ToolCallReq) (msg : String) :
    has_tool_call_failed (get_erroneous_command call msg) = .ok (some true) := rfl

/-- Once the `failed` flag is set, sequential dispatch synthesizes the
abort result for every remaining call without executing it. -/
theorem run_sequential_go_aborted (exec : ToolCallReq → ToolOutput)
    (calls : List ToolCallReq) :
    run_sequential_go exec calls true =
      .ok (calls.map (fun c => get_erroneous_command c abortMessage)) := by
  induction calls with
  | nil => rfl
  | cons c rest ih => simp [run_sequential_go, ih, Except.map]

/-- C1: Sequential dispatch aborts after the first failure.  For a
batch `pre ++ ck :: post` where every call of `pre` executes with an
output classified as succeeded and the output of `ck` is classified as
failed, the result list is, in request order: the real outputs of
`pre`, the real (preserved) output of `ck`, and for every call of
`post` a synthesized error result with content
"Aborted: a previous tool call failed!" produced without executing the
call. -/
theorem sequential_abort_after_first_failure
    (exec : ToolCallReq → ToolOutput) (pre : List ToolCallReq) (ck : ToolCallReq)
    (post : List ToolCallReq)
    (hpre : ∀ c ∈ pre, has_tool_call_failed (exec c) = .ok (some false))
    (hk : has_tool_call_failed (exec ck) = .ok (some true)) :
    run_sequential exec (pre ++ ck :: post) =
      .ok (pre.map exec ++ exec ck ::
        post.map (fun c => get_erroneous_command c abortMessage)) := by
  unfold run_sequential
  induction pre with
  | nil =>
      simp only [List.nil_append, List.map_nil]
      simp [run_sequential_go, hk, run_sequential_go_aborted, Except.map]
  | cons c pre ih =>
      have hc : has_tool_call_failed (exec c) = .ok (some false) :=
        hpre c (List.mem_cons_self c pre)
      have ih2 := ih (fun c hc => hpre c (List.mem_cons_of_mem _ hc))
      simp only [List.cons_append, List.map_cons]
      simp [run_sequential_go, hc, ih2, Except.map]

/-- Concrete executor for the sequential witness: call `"2"` reports an
error, every other call succeeds. -/
def demoSeqExec : ToolCallReq → ToolOutput := fun c =>
  if c.id = "2" then .toolMessage ⟨c.name, c.id, "element not found", .error⟩
  else .toolMessage ⟨c.name, c.id, "ok", .success⟩

theorem sequential_abort_after_first_failure_witness :
    (∀ c ∈ [(⟨"1", "tap"⟩ : ToolCallReq)],
        has_tool_call_failed (demoSeqExec c) = .ok (some false)) ∧
    has_tool_call_failed (demoSeqExec ⟨"2", "input_text"⟩) = .ok (some true) ∧
    run_sequential demoSeqExec
        [⟨"1", "tap"⟩, ⟨"2", "input_text"⟩, ⟨"3", "tap"⟩] =
      .ok ([(⟨"1", "tap"⟩ : ToolCallReq)].map demoSeqExec ++
        demoSeqExec ⟨"2", "input_text"⟩ ::
        [(⟨"3", "tap"⟩ : ToolCallReq)].map
          (fun c => get_erroneous_command c abortMessage)) :=
  have h1 : ∀ c ∈ [(⟨"1", "tap"⟩ : ToolCallReq)],
      has_tool_call_failed (demoSeqExec c) = .ok (some false) := by
    intro c hc
    rw [List.mem_singleton] at hc
    subst hc
    rfl
  have h2 : has_tool_call_failed (demoSeqExec ⟨"2", "input_text"⟩) = .ok (some true) := by
    rfl
  ⟨h1, h2,
   sequential_abort_after_first_failure demoSeqExec
     [⟨"1", "tap"⟩] ⟨"2", "input_text"⟩ [⟨"3", "tap"⟩] h1 h2⟩

/-- C2: Parallel dispatch never aborts and preserves request order.
When no gathered output makes the classifier raise, the batch result is
exactly the request-ordered list of per-call results: a call whose
execution raised yields an error result with message
"Exception during parallel execution: <exception>", and every other
call keeps its own output — one entry per call, independent of the
outcomes of sibling calls. -/
theorem parallel_no_abort_order_preserved
    (exec : ToolCallReq → Except String ToolOutput) (calls : List ToolCallReq)
    (h : ∀ c ∈ calls, ∀ o, exec c = .ok o →
        ∃ r, has_tool_call_failed o = .ok r) :
    run_parallel exec calls = .ok (calls.map (per_call_parallel_result exec)) := by
  induction calls with
  | nil => rfl
  | cons c rest ih =>
      have hrest := ih (fun d hd o ho => h d (List.mem_cons_of_mem _ hd) o ho)
      cases hex : exec c with
      | error e =>
          simp [run_parallel, per_call_parallel_result, hex, hrest, Except.map]
      | ok o =>
          obtain ⟨r, hr⟩ := h c (List.mem_cons_self c rest) o hex
          cases r with
          | none =>
              simp [run_parallel, per_call_parallel_result, hex, hr, hrest, Except.map]
          | some f =>
              simp [run_parallel, per_call_parallel_result, hex, hr, hrest, Except.map]

/-- Concrete gathered outcomes for the parallel witness: call `"2"`
raised `ConnectionReset`, the others returned success messages. -/
def demoParExec : ToolCallReq → Except String ToolOutput := fun c =>
  if c.id = "2" then .error "ConnectionReset"
  else .ok (.toolMessage ⟨c.name, c.id, "ok", .success⟩)

theorem parallel_no_abort_order_preserved_witness :
    (∀ c ∈ [(⟨"1", "tap"⟩ : ToolCallReq), ⟨"2", "swipe"⟩, ⟨"3", "tap"⟩],
        ∀ o, demoParExec c = .ok o → ∃ r, has_tool_call_failed o = .ok r) ∧
    run_parallel demoParExec [⟨"1", "tap"⟩, ⟨"2", "swipe"⟩, ⟨"3", "tap"⟩] =
      .ok ([(⟨"1", "tap"⟩ : ToolCallReq), ⟨"2", "swipe"⟩, ⟨"3", "tap"⟩].map
        (per_call_parallel_result demoParExec)) :=
  have h : ∀ c ∈ [(⟨"1", "tap"⟩ : ToolCallReq), ⟨"2", "swipe"⟩, ⟨"3", "tap"⟩],
      ∀ o, demoParExec c = .ok o → ∃ r, has_tool_call_failed o = .ok r := by
    intro c hc o ho
    fin_cases hc <;> simp [demoParExec] at ho <;>
      exact ⟨some false, by subst ho; rfl⟩
  ⟨h,
   parallel_no_abort_order_preserved demoParExec
     [⟨"1", "tap"⟩, ⟨"2", "swipe"⟩, ⟨"3", "tap"⟩] h⟩

/-- C5 counterexample: a call whose output is a `Command` whose update
is not a dict is not of a recognized success or error shape, yet the
engine does not replace it with a synthesized error result: the
`ValueError` raised by `_get_tool_message` inside
`_has_tool_call_failed` propagates out of `_run_sequential`, so the
dispatch returns an exception instead of a result list. -/
theorem classification_can_raise_counterexample :
    run_sequential (fun _ => ToolOutput.command CmdUpdate.notDict)
        [⟨"call-1", "tap"⟩] =
      .error "Command update is not a dict" := rfl

/-- C5 (amended): a call whose output is of an unrecognized Python type
(neither a `ToolMessage` nor a `Command`) is replaced by a synthesized
error result with the "Unexpected tool output type" message and treated
as failed under the usual handling of each mode — aborting the rest of
a sequential batch, and leaving sibling calls of a parallel batch
untouched — without raising.  (A `Command` whose update holds no valid
tool message instead makes the classifier raise, see the
counterexample.) -/
theorem unrecognized_output_degrades_to_failure
    (exec : ToolCallReq → ToolOutput) (pre : List ToolCallReq) (ck : ToolCallReq)
    (post : List ToolCallReq) (ty : String)
    (hpre : ∀ c ∈ pre, has_tool_call_failed (exec c) = .ok (some false))
    (hk : exec ck = .unrecognized ty)
    (pexec : ToolCallReq → Except String ToolOutput)
    (c1 c2 : ToolCallReq) (ty2 : String) (o2 : ToolOutput)
    (hp1 : pexec c1 = .ok (.unrecognized ty2))
    (hp2 : pexec c2 = .ok o2)
    (hcl2 : has_tool_call_failed o2 = .ok (some false)) :
    run_sequential exec (pre ++ ck :: post) =
      .ok (pre.map exec ++
        get_erroneous_command ck ("Unexpected tool output type: " ++ ty) ::
        post.map (fun c => get_erroneous_command c abortMessage)) ∧
    run_parallel pexec [c1, c2] =
      .ok [get_erroneous_command c1 ("Unexpected tool output type: " ++ ty2), o2] := by
  constructor
  · unfold run_sequential
    induction pre with
    | nil =>
        simp only [List.nil_append, List.map_nil]
        simp [run_sequential_go, hk, has_tool_call_failed, pyTypeName,
          run_sequential_go_aborted, Except.map]
    | cons c pre ih =>
        have hc : has_tool_call_failed (exec c) = .ok (some false) :=
          hpre c (List.mem_cons_self c pre)
        have ih2 := ih (fun c hc => hpre c (List.mem_cons_of_mem _ hc))
        simp only [List.cons_append, List.map_cons]
        simp [run_sequential_go, hc, ih2, Except.map]
  · have hu : has_tool_call_failed (ToolOutput.unrecognized ty2) = .ok none := rfl
    simp [run_parallel, hp1, hp2, hu, hcl2, pyTypeName, Except.map]

/-- Gathered outcomes for the C5 witness: call `"1"` returned a plain
Python value of an unexpected type, call `"2"` a success message. -/
def demoBadTypeExec : ToolCallReq → ToolOutput := fun c =>
  if c.id = "2" then .unrecognized "<class int>"
  else .toolMessage ⟨c.name, c.id, "ok", .success⟩

theorem unrecognized_output_degrades_to_failure_witness :
    (∀ c ∈ [(⟨"1", "tap"⟩ : ToolCallReq)],
        has_tool_call_failed (demoBadTypeExec c) = .ok (some false)) ∧
    demoBadTypeExec ⟨"2", "glimpse_screen"⟩ = .unrecognized "<class int>" ∧
    run_sequential demoBadTypeExec
        [⟨"1", "tap"⟩, ⟨"2", "glimpse_screen"⟩, ⟨"3", "tap"⟩] =
      .ok ([(⟨"1", "tap"⟩ : ToolCallReq)].map demoBadTypeExec ++
        get_erroneous_command ⟨"2", "glimpse_screen"⟩
          ("Unexpected tool output type: " ++ "<class int>") ::
        [(⟨"3", "tap"⟩ : ToolCallReq)].map
          (fun c => get_erroneous_command c abortMessage)) ∧
    run_parallel (fun c => .ok (demoBadTypeExec c))
        [⟨"2", "glimpse_screen"⟩, ⟨"3", "tap"⟩] =
      .ok [get_erroneous_command ⟨"2", "glimpse_screen"⟩
            ("Unexpected tool output type: " ++ "<class int>"),
           demoBadTypeExec ⟨"3", "tap"⟩] :=
  have h1 : ∀ c ∈ [(⟨"1", "tap"⟩ : ToolCallReq)],
      has_tool_call_failed (demoBadTypeExec c) = .ok (some false) := by
    intro c hc
    rw [List.mem_singleton] at hc
    subst hc
    rfl
  have h2 : demoBadTypeExec ⟨"2", "glimpse_screen"⟩ = .unrecognized "<class int>" := by
    rfl
  have hmain := unrecognized_output_degrades_to_failure demoBadTypeExec
    [⟨"1", "tap"⟩] ⟨"2", "glimpse_screen"⟩ [⟨"3", "tap"⟩] "<class int>" h1 h2
    (fun c => .ok (demoBadTypeExec c)) ⟨"2", "glimpse_screen"⟩ ⟨"3", "tap"⟩
    "<class int>" (demoBadTypeExec ⟨"3", "tap"⟩) (congrArg Except.ok h2) rfl rfl
  ⟨h1, h2, hmain.1, hmain.2⟩

/-- Sequential dispatch processes every call into exactly one output
whose extractable `tool_call_id` is the id of that call, provided every
executed output is classifiable and carries the id of its own call
(synthesized abort and error results always do). -/
theorem run_sequential_go_ids (exec : ToolCallReq → ToolOutput)
    (calls : List ToolCallReq) (failed : Bool)
    (h : ∀ c ∈ calls, (∃ f, has_tool_call_failed (exec c) = .ok (some f)) ∧
        output_tool_call_id (exec c) = some c.id) :
    ∃ outs, run_sequential_go exec calls failed = .ok outs ∧
      outs.map output_tool_call_id = calls.map (fun c => some c.id) := by
  induction calls generalizing failed with
  | nil => exact ⟨[], rfl, rfl⟩
  | cons c rest ih =>
      obtain ⟨⟨f, hf⟩, hid⟩ := h c (List.mem_cons_self c rest)
      have hrest := fun b => ih b (fun d hd => h d (List.mem_cons_of_mem _ hd))
      cases failed with
      | true =>
          obtain ⟨outs, hout, hmap⟩ := hrest true
          refine ⟨get_erroneous_command c abortMessage :: outs, ?_, ?_⟩
          · simp [run_sequential_go, hout, Except.map]
          · simp [hmap, output_id_of_erroneous_command]
      | false =>
          obtain ⟨outs, hout, hmap⟩ := hrest f
          refine ⟨exec c :: outs, ?_, ?_⟩
          · simp [run_sequential_go, hf, hout, Except.map]
          · simp [hmap, hid]

/-- Parallel dispatch counterpart of `run_sequential_go_ids`. -/
theorem run_parallel_ids (pexec : ToolCallReq → Except String ToolOutput)
    (calls : List ToolCallReq)
    (h : ∀ c ∈ calls, ∀ o, pexec c = .ok o →
        (∃ r, has_tool_call_failed o = .ok r) ∧
        (∀ f, has_tool_call_failed o = .ok (some f) →
          output_tool_call_id o = some c.id)) :
    ∃ outs, run_parallel pexec calls = .ok outs ∧
      outs.map output_tool_call_id = calls.map (fun c => some c.id) := by
  induction calls with
  | nil => exact ⟨[], rfl, rfl⟩
  | cons c rest ih =>
      obtain ⟨outs, hout, hmap⟩ :=
        ih (fun d hd o ho => h d (List.mem_cons_of_mem _ hd) o ho)
      cases hex : pexec c with
      | error e =>
          refine ⟨get_erroneous_command c
            ("Exception during parallel execution: " ++ e) :: outs, ?_, ?_⟩
          · simp [run_parallel, hex, hout, Except.map]
          · simp [hmap, output_id_of_erroneous_command]
      | ok o =>
          obtain ⟨⟨r, hr⟩, hid⟩ := h c (List.mem_cons_self c rest) o hex
          cases r with
          | none =>
              refine ⟨get_erroneous_command c
                ("Unexpected tool output type: " ++ pyTypeName o) :: outs, ?_, ?_⟩
              · simp [run_parallel, hex, hr, hout, Except.map]
              · simp [hmap, output_id_of_erroneous_command]
          | some f =>
              refine ⟨o :: outs, ?_, ?_⟩
              · simp [run_parallel, hex, hr, hout, Except.map]
              · simp [hmap, hid f hr]

/-- C6: in both modes the engine yields exactly one result per tool
call, in request order, and every result (synthesized ones included)
carries the `tool_call_id` of its own call — assuming each executed
output is classifiable and tagged with the id of the call that produced
it (the contract of the underlying per-call runner). -/
theorem dispatch_one_result_per_call_with_matching_ids
    (exec : ToolCallReq → ToolOutput) (calls : List ToolCallReq)
    (pexec : ToolCallReq → Except String ToolOutput) (pcalls : List ToolCallReq)
    (hseq : ∀ c ∈ calls, (∃ f, has_tool_call_failed (exec c) = .ok (some f)) ∧
        output_tool_call_id (exec c) = some c.id)
    (hpar : ∀ c ∈ pcalls, ∀ o, pexec c = .ok o →
        (∃ r, has_tool_call_failed o = .ok r) ∧
        (∀ f, has_tool_call_failed o = .ok (some f) →
          output_tool_call_id o = some c.id)) :
    (∃ outs, run_sequential exec calls = .ok outs ∧
      outs.length = calls.length ∧
      outs.map output_tool_call_id = calls.map (fun c => some c.id)) ∧
    (∃ pouts, run_parallel pexec pcalls = .ok pouts ∧
      pouts.length = pcalls.length ∧
      pouts.map output_tool_call_id = pcalls.map (fun c => some c.id)) := by
  constructor
  · obtain ⟨outs, hout, hmap⟩ := run_sequential_go_ids exec calls false hseq
    refine ⟨outs, hout, ?_, hmap⟩
    have := congrArg List.length hmap
    simpa using this
  · obtain ⟨pouts, hout, hmap⟩ := run_parallel_ids pexec pcalls hpar
    refine ⟨pouts, hout, ?_, hmap⟩
    have := congrArg List.length hmap
    simpa using this

theorem dispatch_one_result_per_call_with_matching_ids_witness :
    (∃ outs, run_sequential demoSeqExec
        [⟨"1", "tap"⟩, ⟨"2", "input_text"⟩, ⟨"3", "tap"⟩] = .ok outs ∧
      outs.length = 3 ∧
      outs.map output_tool_call_id = [some "1", some "2", some "3"]) ∧
    (∃ pouts, run_parallel demoParExec
        [⟨"1", "tap"⟩, ⟨"2", "swipe"⟩, ⟨"3", "tap"⟩] = .ok pouts ∧
      pouts.length = 3 ∧
      pouts.map output_tool_call_id = [some "1", some "2", some "3"]) :=
  have hseq : ∀ c ∈ [(⟨"1", "tap"⟩ : ToolCallReq), ⟨"2", "input_text"⟩, ⟨"3", "tap"⟩],
      (∃ f, has_tool_call_failed (demoSeqExec c) = .ok (some f)) ∧
      output_tool_call_id (demoSeqExec c) = some c.id := by
    intro c hc
    fin_cases hc
    · exact ⟨⟨false, rfl⟩, rfl⟩
    · exact ⟨⟨true, rfl⟩, rfl⟩
    · exact ⟨⟨false, rfl⟩, rfl⟩
  have hpar : ∀ c ∈ [(⟨"1", "tap"⟩ : ToolCallReq), ⟨"2", "swipe"⟩, ⟨"3", "tap"⟩], ∀ o,
      demoParExec c = .ok o →
      (∃ r, has_tool_call_failed o = .ok r) ∧
      (∀ f, has_tool_call_failed o = .ok (some f) →
        output_tool_call_id o = some c.id) := by
    intro c hc o ho
    fin_cases hc <;> simp [demoParExec] at ho <;>
      exact ⟨⟨some false, by subst ho; rfl⟩, fun f hf => by subst ho; rfl⟩
  dispatch_one_result_per_call_with_matching_ids demoSeqExec
    [⟨"1", "tap"⟩, ⟨"2", "input_text"⟩, ⟨"3", "tap"⟩]
    demoParExec [⟨"1", "tap"⟩, ⟨"2", "swipe"⟩, ⟨"3", "tap"⟩] hseq hpar

/-! ## Theorems on the resilient invocation wrapper -/

/-- C3 counterexample: when the main call completes with `None` under
`none_should_fallback` and the first fallback await raises, that
failure does not propagate to the caller and the fallback is not
attempted only once: the `except` handler catches it and awaits the
fallback a second time, returning the second outcome — here a success,
so the run ends with two fallback invocations and no propagated
failure. -/
theorem fallback_failure_swallowed_counterexample :
    with_fallback (τ := Nat) (.ok none)
        (fun n => if n = 0 then .error "fallback failed" else .ok (some 5)) true =
      { result := .ok (some 5), main_invocations := 1, fallback_invocations := 2 } := rfl

/-- C3 (amended): `with_fallback` invokes the fallback if and only if
the main call raises or completes with `None` while
`none_should_fallback` is set, and the main call is invoked exactly
once — never retried.  When the main call raised, a single fallback
await is made and its outcome (failure included) is returned.  When
the main call returned `None`, the first fallback await is made inside
the `try` block: its success is returned directly, but its failure is
caught by the `except` handler, which awaits the fallback a second
time and returns that second outcome (whose failure propagates).  So
the fallback is attempted at most twice, and only a final fallback
failure reaches the caller.  Without a trigger the main outcome is
returned and the fallback never runs. -/
theorem with_fallback_trigger_and_retry_semantics {τ : Type}
    (m : Except String (Option τ)) (fb : Nat → Except String (Option τ))
    (nsf : Bool) :
    (1 ≤ (with_fallback m fb nsf).fallback_invocations ↔
      (∃ e, m = .error e) ∨ (m = .ok none ∧ nsf = true)) ∧
    (with_fallback m fb nsf).main_invocations = 1 ∧
    (with_fallback m fb nsf).fallback_invocations ≤ 2 ∧
    (∀ e, m = .error e →
      (with_fallback m fb nsf).result = fb 0 ∧
      (with_fallback m fb nsf).fallback_invocations = 1) ∧
    (m = .ok none → nsf = true →
      (∀ v, fb 0 = .ok v →
        (with_fallback m fb nsf).result = .ok v ∧
        (with_fallback m fb nsf).fallback_invocations = 1) ∧
      (∀ e, fb 0 = .error e →
        (with_fallback m fb nsf).result = fb 1 ∧
        (with_fallback m fb nsf).fallback_invocations = 2)) ∧
    (¬((∃ e, m = .error e) ∨ (m = .ok none ∧ nsf = true)) →
      (with_fallback m fb nsf).result = m ∧
      (with_fallback m fb nsf).fallback_invocations = 0) := by
  cases m with
  | error e => simp [with_fallback]
  | ok r =>
      cases r with
      | none =>
          cases nsf with
          | false => simp [with_fallback]
          | true =>
              cases hfb : fb 0 with
              | ok v => simp [with_fallback, hfb]
              | error e => simp [with_fallback, hfb]
      | some v => cases nsf <;> simp [with_fallback]

theorem with_fallback_trigger_and_retry_semantics_witness :
    ((Except.ok (none : Option Nat) : Except String (Option Nat)) = .ok none ∧
      true = true) ∧
    (fun n => if n = 0 then (Except.error "fallback failed" : Except String (Option Nat))
              else .ok (some 5)) 0 = .error "fallback failed" ∧
    (with_fallback (τ := Nat) (.ok none)
        (fun n => if n = 0 then .error "fallback failed" else .ok (some 5)) true).result =
      (fun n => if n = 0 then (Except.error "fallback failed" : Except String (Option Nat))
                else .ok (some 5)) 1 ∧
    (with_fallback (τ := Nat) (.ok none)
        (fun n => if n = 0 then .error "fallback failed" else .ok (some 5))
        true).fallback_invocations = 2 ∧
    (with_fallback (τ := Nat) (.ok none)
        (fun n => if n = 0 then .error "fallback failed" else .ok (some 5))
        true).main_invocations = 1 :=
  have h := with_fallback_trigger_and_retry_semantics (τ := Nat) (.ok none)
    (fun n => if n = 0 then .error "fallback failed" else .ok (some 5)) true
  have hpath := (h.2.2.2.2.1 rfl rfl).2 "fallback failed" rfl
  ⟨⟨rfl, rfl⟩, rfl, hpath.1, hpath.2, h.2.1⟩

/-- C10: when the main call returns `None` and the fallback call also
completes with `None` under `none_should_fallback`, that `None` is
returned to the caller, after exactly one fallback attempt — the
fallback outcome is never itself checked against the null-as-failure
rule. -/
theorem fallback_null_accepted_unconditionally (τ : Type) :
    with_fallback (τ := τ) (.ok none) (fun _ => .ok none) true =
      { result := .ok none, main_invocations := 1, fallback_invocations := 1 } := rfl

/-- C9: the wait-notice wrapper is observation-only.  Whichever task
wins the race, the llm outcome is returned unchanged (exceptions
re-raised as they are), the llm task is awaited exactly once and never
cancelled; the waiting notice is logged exactly when the timer fires
first, and the timer is cancelled exactly when the call finishes
first. -/
theorem wait_notice_observation_only {τ : Type}
    (w : RaceWinner) (o : Except String τ) :
    (invoke_llm_with_timeout_message w o).result = o ∧
    (invoke_llm_with_timeout_message w o).llm_cancelled = false ∧
    (invoke_llm_with_timeout_message w o).llm_awaited = 1 ∧
    ((invoke_llm_with_timeout_message w o).notice_logged = true ↔ w = .waiterTask) ∧
    ((invoke_llm_with_timeout_message w o).waiter_cancelled = true ↔ w = .llmTask) := by
  cases w <;> simp [invoke_llm_with_timeout_message]

theorem wait_notice_observation_only_witness :
    (invoke_llm_with_timeout_message (τ := Nat) .waiterTask (.ok 3)).result = .ok 3 ∧
    (invoke_llm_with_timeout_message (τ := Nat) .waiterTask (.ok 3)).llm_cancelled = false ∧
    (invoke_llm_with_timeout_message (τ := Nat) .waiterTask (.ok 3)).llm_awaited = 1 ∧
    ((invoke_llm_with_timeout_message (τ := Nat) .waiterTask (.ok 3)).notice_logged = true ↔
      RaceWinner.waiterTask = RaceWinner.waiterTask) ∧
    ((invoke_llm_with_timeout_message (τ := Nat) .waiterTask (.ok 3)).waiter_cancelled = true ↔
      RaceWinner.waiterTask = RaceWinner.llmTask) :=
  wait_notice_observation_only (τ := Nat) .waiterTask (.ok 3)

/-! ## Theorems on the routing functions -/

theorem find?_isNone_eq_not_any {α : Type} (l : List α) (p : α → Bool) :
    (l.find? p).isNone = !l.any p := by
  induction l with
  | nil => rfl
  | cons a l ih => cases h : p a <;> simp [List.find?_cons, h, ih]

/-- C4: convergence routing is the total function of the subgoal plan
described by the spec: any FAILURE routes to replan; otherwise all
SUCCESS, or no subgoal in RUNNING/PENDING state, ends the run;
otherwise the loop continues. -/
theorem convergence_gate_matches_spec (subgoal_plan : List Subgoal) :
    convergence_gate subgoal_plan = convergence_route_spec subgoal_plan := by
  unfold convergence_gate convergence_route_spec one_of_them_is_failure
    all_completed get_current_subgoal
  rw [find?_isNone_eq_not_any]
  cases subgoal_plan.any (fun s => statusIsFailure s.status) <;>
    cases subgoal_plan.all (fun s => statusIsSuccess s.status) <;>
      cases subgoal_plan.any (fun s => statusIsCurrent s.status) <;> simp

/-- C7: post-reason routing fans out and never stalls: pending subgoal
completions route to the orchestrator; a (truthy) structured decision
routes to the executor, and together with pending completions both
successors fire; with neither present the gate defaults to the
orchestrator alone — so the successor list is never empty. -/
theorem post_cortex_gate_fanout (state : GraphState) :
    (state.complete_subgoals_by_ids.length > 0 →
      "review_subgoals" ∈ post_cortex_gate state) ∧
    (truthyStr state.structured_decisions = true →
      "execute_decisions" ∈ post_cortex_gate state) ∧
    (state.complete_subgoals_by_ids.length > 0 →
      truthyStr state.structured_decisions = true →
      post_cortex_gate state = ["review_subgoals", "execute_decisions"]) ∧
    (state.complete_subgoals_by_ids.length = 0 →
      truthyStr state.structured_decisions = false →
      post_cortex_gate state = ["review_subgoals"]) ∧
    post_cortex_gate state ≠ [] := by
  unfold post_cortex_gate
  cases hd : truthyStr state.structured_decisions <;>
    cases hl : state.complete_subgoals_by_ids.length <;>
      simp [hd, hl]

theorem post_cortex_gate_fanout_witness :
    ("review_subgoals" ∈ post_cortex_gate
      { subgoal_plan := [], complete_subgoals_by_ids := ["s1"],
        structured_decisions := some "tap the button",
        executor_messages := [], monolithic_is_complete := false }) ∧
    ("execute_decisions" ∈ post_cortex_gate
      { subgoal_plan := [], complete_subgoals_by_ids := ["s1"],
        structured_decisions := some "tap the button",
        executor_messages := [], monolithic_is_complete := false }) ∧
    post_cortex_gate
      { subgoal_plan := [], complete_subgoals_by_ids := ["s1"],
        structured_decisions := some "tap the button",
        executor_messages := [], monolithic_is_complete := false } =
      ["review_subgoals", "execute_decisions"] :=
  have h := post_cortex_gate_fanout
    { subgoal_plan := [], complete_subgoals_by_ids := ["s1"],
      structured_decisions := some "tap the button",
      executor_messages := [], monolithic_is_complete := false }
  ⟨h.1 (by decide), h.2.1 (by decide), h.2.2.1 (by decide) (by decide)⟩

/-- C8: monolithic routing terminates when the monolithic node recorded
completion, else invokes tools exactly when the last executor message
is an AI message with at least one tool call, else loops back to
perception; and the recorded completion flag is detected only from an
AI response that carries no tool calls, has nonempty content, and
contains one of the textual completion phrases. -/
theorem post_monolithic_gate_spec (state : GraphState) :
    post_monolithic_gate state = monolithic_route_spec state ∧
    (∀ resp, monolithic_detect_complete resp = true →
      ∃ content, resp = ExecMessage.ai content [] ∧
        content.isEmpty = false ∧
        completion_phrases.any (fun p => strContainsSub (strToLower content) p) = true) := by
  constructor
  · unfold post_monolithic_gate monolithic_route_spec
    cases state.monolithic_is_complete
    · cases hlast : state.executor_messages.getLast? with
      | none => simp
      | some msg =>
          cases msg with
          | ai content tool_calls => cases tool_calls <;> simp
          | toolM m => simp
          | otherMsg => simp
    · simp
  · intro resp h
    cases resp with
    | ai content tool_calls =>
        simp only [monolithic_detect_complete] at h
        by_cases he : (tool_calls.isEmpty && !content.isEmpty) = true
        · have hemp : tool_calls = [] := by
            cases tool_calls with
            | nil => rfl
            | cons a l => simp at he
          subst hemp
          rw [if_pos he] at h
          obtain ⟨h1, h2⟩ := Bool.and_eq_true_iff.mp he
          refine ⟨content, rfl, ?_, h⟩
          simpa using h2
        · rw [if_neg he] at h
          exact absurd h (by simp)
    | toolM m => exact absurd h (by simp [monolithic_detect_complete])
    | otherMsg => exact absurd h (by simp [monolithic_detect_complete])

theorem post_monolithic_gate_spec_witness :
    post_monolithic_gate
      { subgoal_plan := [], complete_subgoals_by_ids := [],
        structured_decisions := none,
        executor_messages := [ExecMessage.ai "tapping" [⟨"1", "tap"⟩]],
        monolithic_is_complete := false } =
      monolithic_route_spec
      { subgoal_plan := [], complete_subgoals_by_ids := [],
        structured_decisions := none,
        executor_messages := [ExecMessage.ai "tapping" [⟨"1", "tap"⟩]],
        monolithic_is_complete := false } ∧
    (∃ content, ExecMessage.ai "The task is complete." [] =
        ExecMessage.ai content [] ∧
      content.isEmpty = false ∧
      completion_phrases.any (fun p => strContainsSub (strToLower content) p) = true) :=
  have h := post_monolithic_gate_spec
    { subgoal_plan := [], complete_subgoals_by_ids := [],
      structured_decisions := none,
      executor_messages := [ExecMessage.ai "tapping" [⟨"1", "tap"⟩]],
      monolithic_is_complete := false }
  ⟨h.1, h.2 (ExecMessage.ai "The task is complete." []) (by decide)⟩

end MobileUse
